import Mathlib

/-!
# Verification of the Bitcoin halving backtest dashboard (`src/app/page.tsx`)

Shallow embedding of the core of the repository: the `performBacktest`
cycle analyzer and the load/display state machine of the `Home` component.

Modelling conventions:
* JavaScript numbers are idealized as exact rationals (`ℚ`); timestamps are
  integers (epoch milliseconds).  Floating-point rounding is out of scope,
  but the IEEE special values produced by division by zero are modelled
  explicitly by the type `JSVal` (`fin q`, `posInf`, `negInf`, `nan`),
  since the spec's edge-case policy is about exactly those values.
* `x || d` on numbers (falsy fallback) is `jsOr` / `jsOrQ`: it substitutes
  the default when the value is `undefined` (modelled by `Option`) or `0`.
* `new Date(halving.date).getTime()` is precomputed: each embedded
  `HalvingEvent` carries its `timestampMs` (UTC midnight of the date
  string, in epoch milliseconds).
* `Array.prototype.reduce` with an initial value is `List.foldl`;
  `filter` and `slice(0, n)` are `List.filter` and `List.take`.
-/

/-- A normalized price point, as built by `fetchHistoricalData`
(`{timestamp, date, price}`). -/
structure PricePoint where
  timestamp : Int
  date : String
  price : ℚ
deriving DecidableEq, Repr

/-- A halving event from the hardcoded table, extended with the epoch-ms
value of `new Date(date).getTime()`. -/
structure HalvingEvent where
  date : String
  blockHeight : Nat
  cycle : Nat
  priceAtHalving : ℚ
  timestampMs : Int
deriving DecidableEq, Repr

/-- The result of a JavaScript arithmetic expression: a finite number or
one of the non-finite IEEE values. -/
inductive JSVal where
  | fin (q : ℚ)
  | posInf
  | negInf
  | nan
deriving DecidableEq, Repr

/-- `true` exactly on finite values (JavaScript `Number.isFinite`). -/
def JSVal.isFinite : JSVal → Bool
  | .fin _ => true
  | _ => false

/-- JavaScript division of finite operands: finite quotient when the
divisor is nonzero, otherwise `±Infinity` or `NaN` by the sign of the
dividend. -/
def jsDiv (a b : ℚ) : JSVal :=
  if b ≠ 0 then .fin (a / b)
  else if 0 < a then .posInf
  else if a < 0 then .negInf
  else .nan

/-- Multiplication of a JavaScript value by the finite constant 100
(`Infinity * 100 = Infinity`, `NaN * 100 = NaN`). -/
def jsMul100 : JSVal → JSVal
  | .fin q => .fin (q * 100)
  | .posInf => .posInf
  | .negInf => .negInf
  | .nan => .nan

/-- The percentage pattern used throughout the backtest:
`((a − b) / b) * 100`. -/
def pct (a b : ℚ) : JSVal := jsMul100 (jsDiv (a - b) b)

/-- `x || d` where `x` may be `undefined`: the default replaces both
`undefined` and the falsy number `0`. -/
def jsOr (x : Option ℚ) (d : ℚ) : ℚ :=
  match x with
  | none => d
  | some q => if q = 0 then d else q

/-- `x || d` on a number that is known to be defined. -/
def jsOrQ (q d : ℚ) : ℚ := if q = 0 then d else q

/-- Milliseconds in a day (`24 * 60 * 60 * 1000`). -/
def dayMs : Int := 24 * 60 * 60 * 1000

/-- The `preHalvingData` record of a `CycleAnalysis`. -/
structure PreHalvingData where
  days : Nat
  startPrice : ℚ
  halvingPrice : ℚ
  percentageGain : JSVal
deriving DecidableEq, Repr

/-- The `postHalvingData` record of a `CycleAnalysis`. -/
structure PostHalvingData where
  days : Nat
  halvingPrice : ℚ
  peakPrice : ℚ
  peakDate : String
  percentageGain : JSVal
  daysToTop : Int
deriving DecidableEq, Repr

/-- The `crashData` record of a `CycleAnalysis`. -/
structure CrashData where
  crashDate : String
  bottomPrice : ℚ
  percentageFromPeak : JSVal
deriving DecidableEq, Repr

/-- One analysis record per halving event. -/
structure CycleAnalysis where
  cycle : Nat
  halvingDate : String
  preHalvingData : PreHalvingData
  postHalvingData : PostHalvingData
  crashData : CrashData
deriving DecidableEq, Repr

/-- The hardcoded `halvingEvents` table of the `Home` component. -/
def halvingEvents : List HalvingEvent :=
  [ ⟨"2012-11-28", 210000, 1, 1235 / 100, 1354060800000⟩,
    ⟨"2016-07-09", 420000, 2, 65063 / 100, 1468022400000⟩,
    ⟨"2020-05-11", 630000, 3, 882142 / 100, 1589155200000⟩,
    ⟨"2024-04-19", 840000, 4, 63812, 1713484800000⟩ ]

/-- The `reduce` step for the peak search:
`point.price > max.price ? point : max`. -/
def stepMax (a p : PricePoint) : PricePoint :=
  if a.price < p.price then p else a

/-- The `reduce` step for the bottom search:
`point.price < min.price ? point : min`. -/
def stepMin (a p : PricePoint) : PricePoint :=
  if p.price < a.price then p else a

/-- `preHalvingDataPoints`: points with timestamp in
`[T − 365 days, T]` (line 85). -/
def preWindowOf (data : List PricePoint) (halving : HalvingEvent) :
    List PricePoint :=
  data.filter fun d =>
    decide (halving.timestampMs - 365 * dayMs ≤ d.timestamp) &&
    decide (d.timestamp ≤ halving.timestampMs)

/-- `startPrice = preHalvingDataPoints[0]?.price || 0` (line 89). -/
def startPriceOf (data : List PricePoint) (halving : HalvingEvent) : ℚ :=
  jsOr ((preWindowOf data halving).head?.map (·.price)) 0

/-- `halvingPrice = preHalvingDataPoints[len − 1]?.price ||
halving.priceAtHalving` (line 90). -/
def halvingPriceOf (data : List PricePoint) (halving : HalvingEvent) : ℚ :=
  jsOr ((preWindowOf data halving).getLast?.map (·.price))
    halving.priceAtHalving

/-- `postHalvingDataPoints`: points with timestamp in
`(T, T + 730 days]` (line 95). -/
def postWindowOf (data : List PricePoint) (halving : HalvingEvent) :
    List PricePoint :=
  data.filter fun d =>
    decide (halving.timestampMs < d.timestamp) &&
    decide (d.timestamp ≤ halving.timestampMs + 730 * dayMs)

/-- The sentinel `{ price: 0, date: '', timestamp: 0 }` used when the
post-halving window is empty (line 101). -/
def peakSentinel : PricePoint := ⟨0, "", 0⟩

/-- `peak`: `reduce` over the post window with initial value
`postHalvingDataPoints[0] || sentinel` (lines 99‑101). -/
def peakOf (data : List PricePoint) (halving : HalvingEvent) : PricePoint :=
  (postWindowOf data halving).foldl stepMax
    ((postWindowOf data halving).head?.getD peakSentinel)

/-- `peakPrice = peak?.price || 0` (line 103). -/
def peakPriceOf (data : List PricePoint) (halving : HalvingEvent) : ℚ :=
  jsOrQ (peakOf data halving).price 0

/-- `afterPeak = data.filter(d => d.timestamp > peak?.timestamp)`
(line 109). -/
def afterPeakOf (data : List PricePoint) (halving : HalvingEvent) :
    List PricePoint :=
  data.filter fun d => decide ((peakOf data halving).timestamp < d.timestamp)

/-- `bottomAfterPeak`: `reduce` over `afterPeak.slice(0, 365)` with
initial value `afterPeak[0] || { price: peakPrice, date: '', timestamp: 0 }`
(lines 110‑112). -/
def troughOf (data : List PricePoint) (halving : HalvingEvent) : PricePoint :=
  ((afterPeakOf data halving).take 365).foldl stepMin
    ((afterPeakOf data halving).head?.getD ⟨0, "", peakPriceOf data halving⟩)

/-- The body of the `halvingEvents.forEach` loop of `performBacktest`
(lines 80‑138): one `CycleAnalysis` per event. -/
def analyzeEvent (data : List PricePoint) (halving : HalvingEvent) :
    CycleAnalysis :=
  let startPrice := startPriceOf data halving
  let halvingPrice := halvingPriceOf data halving
  let preHalvingGain := pct halvingPrice startPrice
  let peak := peakOf data halving
  let peakPrice := peakPriceOf data halving
  let daysToTop := Int.fdiv (peak.timestamp - halving.timestampMs) dayMs
  let postHalvingGain := pct peakPrice halvingPrice
  let bottomAfterPeak := troughOf data halving
  let crashPercentage := pct bottomAfterPeak.price peakPrice
  { cycle := halving.cycle
    halvingDate := halving.date
    preHalvingData :=
      { days := 365
        startPrice := startPrice
        halvingPrice := halvingPrice
        percentageGain := preHalvingGain }
    postHalvingData :=
      { days := (postWindowOf data halving).length
        halvingPrice := halvingPrice
        peakPrice := peakPrice
        peakDate := peak.date
        percentageGain := postHalvingGain
        daysToTop := daysToTop }
    crashData :=
      { crashDate := bottomAfterPeak.date
        bottomPrice := bottomAfterPeak.price
        percentageFromPeak := crashPercentage } }

/-- `performBacktest`: the analyses pushed by the `forEach` loop, one per
event of the fixed table (lines 77‑142). -/
def performBacktest (data : List PricePoint) : List CycleAnalysis :=
  halvingEvents.map (analyzeEvent data)

/-- The component state of `Home`: `priceData`, `cycleAnalysis`,
`loading` (lines 39‑41). -/
structure HomeState where
  priceData : List PricePoint
  cycleAnalysis : List CycleAnalysis
  loading : Bool
deriving DecidableEq, Repr

/-- The initial component state: empty series, empty analyses,
`loading = true`. -/
def initialState : HomeState := ⟨[], [], true⟩

/-- The outcome of the single fetch-and-parse attempt: the formatted
price series on success, an error description otherwise. -/
def FetchOutcome := Except String (List PricePoint)

/-- `fetchHistoricalData` (lines 54‑75) as a state transition: on success
it stores the series, runs the backtest and clears `loading`; on any
failure it logs `console.error('Error fetching data:', error)` and clears
`loading`, leaving series and analyses untouched.  The second component
collects the console output. -/
def fetchHistoricalData (result : FetchOutcome) (s : HomeState) :
    HomeState × List String :=
  match result with
  | .ok formattedData =>
      ({ priceData := formattedData
         cycleAnalysis := performBacktest formattedData
         loading := false }, [])
  | .error e =>
      ({ s with loading := false }, ["Error fetching data: " ++ e])

/-- What the `Home` component renders. -/
inductive Screen where
  | loadingScreen
  | mainView (priceData : List PricePoint) (analyses : List CycleAnalysis)
deriving DecidableEq, Repr

/-- The render function of `Home` (lines 152‑296): the loading indicator
while `loading` is true, the dashboard built from the state otherwise. -/
def render (s : HomeState) : Screen :=
  if s.loading then .loadingScreen else .mainView s.priceData s.cycleAnalysis

/-- The state update `setCycleAnalysis (performBacktest data)` performed
by the analyzer stage. -/
def setAnalyses (data : List PricePoint) (s : HomeState) : HomeState :=
  { s with cycleAnalysis := performBacktest data }

/-- `r` is the element kept by the peak `reduce`: the first occurrence of
the maximum price of `w`. -/
def isFirstMax (w : List PricePoint) (r : PricePoint) : Prop :=
  (∃ l1 l2, w = l1 ++ r :: l2 ∧ ∀ p ∈ l1, p.price < r.price) ∧
  ∀ p ∈ w, p.price ≤ r.price

/-- `r` is the element kept by the bottom `reduce`: the first occurrence
of the minimum price of `w`. -/
def isFirstMin (w : List PricePoint) (r : PricePoint) : Prop :=
  (∃ l1 l2, w = l1 ++ r :: l2 ∧ ∀ p ∈ l1, r.price < p.price) ∧
  ∀ p ∈ w, r.price ≤ p.price

/-- Characterization of the max-`reduce`: the fold either returns its
seed (when nothing beats it) or the first element of the list strictly
above the seed that every later element fails to beat. -/
lemma foldl_stepMax_spec (l : List PricePoint) (a : PricePoint) :
    (l.foldl stepMax a = a ∧ ∀ p ∈ l, p.price ≤ a.price) ∨
    (∃ l1 l2, l = l1 ++ (l.foldl stepMax a) :: l2 ∧
      a.price < (l.foldl stepMax a).price ∧
      (∀ p ∈ l1, p.price < (l.foldl stepMax a).price) ∧
      (∀ p ∈ l2, p.price ≤ (l.foldl stepMax a).price)) := by
  induction l generalizing a with
  | nil => exact Or.inl ⟨rfl, by simp⟩
  | cons p ps ih =>
    by_cases hp : a.price < p.price
    · have hstep : stepMax a p = p := by simp [stepMax, hp]
      have hfold : (p :: ps).foldl stepMax a = ps.foldl stepMax p := by
        simp [List.foldl_cons, hstep]
      rcases ih p with ⟨heq, hub⟩ | ⟨l1, l2, hdec, hlt, hpre, hpost⟩
      · refine Or.inr ⟨[], ps, ?_, ?_, ?_, ?_⟩
        · simp [hfold, heq]
        · rw [hfold, heq]; exact hp
        · simp
        · intro q hq; rw [hfold, heq]; exact hub q hq
      · refine Or.inr ⟨p :: l1, l2, ?_, ?_, ?_, ?_⟩
        · rw [hfold, List.cons_append, ← hdec]
        · rw [hfold]; exact hp.trans hlt
        · intro q hq
          rw [hfold]
          rcases List.mem_cons.mp hq with rfl | hq
          · exact hlt
          · exact hpre q hq
        · intro q hq; rw [hfold]; exact hpost q hq
    · have hstep : stepMax a p = a := by simp [stepMax, hp]
      have hfold : (p :: ps).foldl stepMax a = ps.foldl stepMax a := by
        simp [List.foldl_cons, hstep]
      rcases ih a with ⟨heq, hub⟩ | ⟨l1, l2, hdec, hlt, hpre, hpost⟩
      · refine Or.inl ⟨by rw [hfold, heq], ?_⟩
        intro q hq
        rcases List.mem_cons.mp hq with rfl | hq
        · exact le_of_not_lt hp
        · exact hub q hq
      · refine Or.inr ⟨p :: l1, l2, ?_, ?_, ?_, ?_⟩
        · rw [hfold, List.cons_append, ← hdec]
        · rw [hfold]; exact hlt
        · intro q hq
          rw [hfold]
          rcases List.mem_cons.mp hq with rfl | hq
          · exact lt_of_le_of_lt (le_of_not_lt hp) hlt
          · exact hpre q hq
        · intro q hq; rw [hfold]; exact hpost q hq

/-- Characterization of the min-`reduce`, dual to `foldl_stepMax_spec`. -/
lemma foldl_stepMin_spec (l : List PricePoint) (a : PricePoint) :
    (l.foldl stepMin a = a ∧ ∀ p ∈ l, a.price ≤ p.price) ∨
    (∃ l1 l2, l = l1 ++ (l.foldl stepMin a) :: l2 ∧
      (l.foldl stepMin a).price < a.price ∧
      (∀ p ∈ l1, (l.foldl stepMin a).price < p.price) ∧
      (∀ p ∈ l2, (l.foldl stepMin a).price ≤ p.price)) := by
  induction l generalizing a with
  | nil => exact Or.inl ⟨rfl, by simp⟩
  | cons p ps ih =>
    by_cases hp : p.price < a.price
    · have hstep : stepMin a p = p := by simp [stepMin, hp]
      have hfold : (p :: ps).foldl stepMin a = ps.foldl stepMin p := by
        simp [List.foldl_cons, hstep]
      rcases ih p with ⟨heq, hlb⟩ | ⟨l1, l2, hdec, hlt, hpre, hpost⟩
      · refine Or.inr ⟨[], ps, ?_, ?_, ?_, ?_⟩
        · simp [hfold, heq]
        · rw [hfold, heq]; exact hp
        · simp
        · intro q hq; rw [hfold, heq]; exact hlb q hq
      · refine Or.inr ⟨p :: l1, l2, ?_, ?_, ?_, ?_⟩
        · rw [hfold, List.cons_append, ← hdec]
        · rw [hfold]; exact hlt.trans hp
        · intro q hq
          rw [hfold]
          rcases List.mem_cons.mp hq with rfl | hq
          · exact hlt
          · exact hpre q hq
        · intro q hq; rw [hfold]; exact hpost q hq
    · have hstep : stepMin a p = a := by simp [stepMin, hp]
      have hfold : (p :: ps).foldl stepMin a = ps.foldl stepMin a := by
        simp [List.foldl_cons, hstep]
      rcases ih a with ⟨heq, hlb⟩ | ⟨l1, l2, hdec, hlt, hpre, hpost⟩
      · refine Or.inl ⟨by rw [hfold, heq], ?_⟩
        intro q hq
        rcases List.mem_cons.mp hq with rfl | hq
        · exact le_of_not_lt hp
        · exact hlb q hq
      · refine Or.inr ⟨p :: l1, l2, ?_, ?_, ?_, ?_⟩
        · rw [hfold, List.cons_append, ← hdec]
        · rw [hfold]; exact hlt
        · intro q hq
          rw [hfold]
          rcases List.mem_cons.mp hq with rfl | hq
          · exact lt_of_lt_of_le hlt (le_of_not_lt hp)
          · exact hpre q hq
        · intro q hq; rw [hfold]; exact hpost q hq

/-- On a nonempty list, the `reduce` seeded with the head is the first
occurrence of the maximum. -/
lemma foldl_stepMax_head (h : PricePoint) (t : List PricePoint) :
    isFirstMax (h :: t) ((h :: t).foldl stepMax h) := by
  have hh : (h :: t).foldl stepMax h = t.foldl stepMax h := by
    simp [List.foldl_cons, stepMax]
  rw [hh]
  rcases foldl_stepMax_spec t h with ⟨heq, hub⟩ | ⟨l1, l2, hdec, hlt, hpre, hpost⟩
  · refine ⟨⟨[], t, by simp [heq], by simp⟩, ?_⟩
    intro q hq
    rcases List.mem_cons.mp hq with rfl | hq
    · rw [heq]
    · rw [heq]; exact hub q hq
  · refine ⟨⟨h :: l1, l2, by rw [List.cons_append, ← hdec], ?_⟩, ?_⟩
    · intro q hq
      rcases List.mem_cons.mp hq with rfl | hq
      · exact hlt
      · exact hpre q hq
    · intro q hq
      rcases List.mem_cons.mp hq with rfl | hq
      · exact le_of_lt hlt
      · rw [hdec] at hq
        rcases List.mem_append.mp hq with hq | hq
        · exact le_of_lt (hpre q hq)
        · rcases List.mem_cons.mp hq with rfl | hq
          · exact le_refl _
          · exact hpost q hq

/-- On a nonempty list, the `reduce` seeded with the head is the first
occurrence of the minimum. -/
lemma foldl_stepMin_head (h : PricePoint) (t : List PricePoint) :
    isFirstMin (h :: t) ((h :: t).foldl stepMin h) := by
  have hh : (h :: t).foldl stepMin h = t.foldl stepMin h := by
    simp [List.foldl_cons, stepMin]
  rw [hh]
  rcases foldl_stepMin_spec t h with ⟨heq, hlb⟩ | ⟨l1, l2, hdec, hlt, hpre, hpost⟩
  · refine ⟨⟨[], t, by simp [heq], by simp⟩, ?_⟩
    intro q hq
    rcases List.mem_cons.mp hq with rfl | hq
    · rw [heq]
    · rw [heq]; exact hlb q hq
  · refine ⟨⟨h :: l1, l2, by rw [List.cons_append, ← hdec], ?_⟩, ?_⟩
    · intro q hq
      rcases List.mem_cons.mp hq with rfl | hq
      · exact hlt
      · exact hpre q hq
    · intro q hq
      rcases List.mem_cons.mp hq with rfl | hq
      · exact le_of_lt hlt
      · rw [hdec] at hq
        rcases List.mem_append.mp hq with hq | hq
        · exact le_of_lt (hpre q hq)
        · rcases List.mem_cons.mp hq with rfl | hq
          · exact le_refl _
          · exact hpost q hq

/-- Membership in an `isFirstMax` decomposition. -/
lemma isFirstMax_elem {w : List PricePoint} {r : PricePoint}
    (h : isFirstMax w r) : r ∈ w := by
  obtain ⟨⟨l1, l2, hdec, _⟩, _⟩ := h
  rw [hdec]
  exact List.mem_append.mpr (Or.inr (List.mem_cons_self _ _))

/-- Membership in an `isFirstMin` decomposition. -/
lemma isFirstMin_elem {w : List PricePoint} {r : PricePoint}
    (h : isFirstMin w r) : r ∈ w := by
  obtain ⟨⟨l1, l2, hdec, _⟩, _⟩ := h
  rw [hdec]
  exact List.mem_append.mpr (Or.inr (List.mem_cons_self _ _))

/-- `x || 0` is the identity on numbers. -/
lemma jsOrQ_zero (q : ℚ) : jsOrQ q 0 = q := by
  by_cases h : q = 0 <;> simp [jsOrQ, h]

/-- With an empty post window the peak is the sentinel. -/
lemma peakOf_eq_sentinel {data : List PricePoint} {e : HalvingEvent}
    (hw : postWindowOf data e = []) : peakOf data e = peakSentinel := by
  simp [peakOf, hw]

/-- With a nonempty post window the peak is the first maximum. -/
lemma peakOf_isFirstMax {data : List PricePoint} {e : HalvingEvent}
    (hw : postWindowOf data e ≠ []) :
    isFirstMax (postWindowOf data e) (peakOf data e) := by
  obtain ⟨h, t, hw'⟩ := List.exists_cons_of_ne_nil hw
  unfold peakOf
  rw [hw']
  simp only [List.head?_cons, Option.getD_some]
  exact foldl_stepMax_head h t

/-- With an empty crash window the trough is the default record built
from `peakPrice`. -/
lemma troughOf_default {data : List PricePoint} {e : HalvingEvent}
    (hch : afterPeakOf data e = []) :
    troughOf data e = ⟨0, "", peakPriceOf data e⟩ := by
  simp [troughOf, hch]

/-- With a nonempty crash window the trough is the first minimum of the
first 365 post-peak points. -/
lemma troughOf_isFirstMin {data : List PricePoint} {e : HalvingEvent}
    (hne : afterPeakOf data e ≠ []) :
    isFirstMin ((afterPeakOf data e).take 365) (troughOf data e) := by
  obtain ⟨h, t, hw'⟩ := List.exists_cons_of_ne_nil hne
  unfold troughOf
  rw [hw']
  simp only [List.head?_cons, Option.getD_some]
  have ht : (h :: t).take 365 = h :: t.take 364 := rfl
  rw [ht]
  exact foldl_stepMin_head h (t.take 364)

/-- `preHalvingData.percentageGain` as computed on line 91. -/
lemma analyzeEvent_preGain (data : List PricePoint) (e : HalvingEvent) :
    (analyzeEvent data e).preHalvingData.percentageGain
      = pct (halvingPriceOf data e) (startPriceOf data e) := rfl

/-- `postHalvingData.percentageGain` as computed on line 106. -/
lemma analyzeEvent_postGain (data : List PricePoint) (e : HalvingEvent) :
    (analyzeEvent data e).postHalvingData.percentageGain
      = pct (peakPriceOf data e) (halvingPriceOf data e) := rfl

/-- `crashData.percentageFromPeak` as computed on line 114. -/
lemma analyzeEvent_crashPct (data : List PricePoint) (e : HalvingEvent) :
    (analyzeEvent data e).crashData.percentageFromPeak
      = pct (troughOf data e).price (peakPriceOf data e) := rfl

/-- `postHalvingData.daysToTop` as computed on line 105. -/
lemma analyzeEvent_daysToTop (data : List PricePoint) (e : HalvingEvent) :
    (analyzeEvent data e).postHalvingData.daysToTop
      = Int.fdiv ((peakOf data e).timestamp - e.timestampMs) dayMs := rfl

/-- Dividing by zero never produces a finite percentage. -/
lemma pct_div_zero_not_finite (a : ℚ) : (pct a 0).isFinite = false := by
  have h0 : ¬ ((0 : ℚ) ≠ 0) := by simp
  unfold pct jsDiv
  rw [if_neg h0]
  by_cases h1 : 0 < a - 0
  · rw [if_pos h1]; rfl
  · rw [if_neg h1]
    by_cases h2 : a - 0 < 0
    · rw [if_pos h2]; rfl
    · rw [if_neg h2]; rfl

/-- `((0 − b) / b) * 100 = −100` for nonzero `b`. -/
lemma pct_zero_of_ne (b : ℚ) (h : b ≠ 0) : pct 0 b = JSVal.fin (-100) := by
  unfold pct jsDiv
  rw [if_pos h, zero_sub, neg_div, div_self h]
  norm_num [jsMul100]

/-- `((a − a) / a) * 100 = 0` for nonzero `a`. -/
lemma pct_self (a : ℚ) (h : a ≠ 0) : pct a a = JSVal.fin 0 := by
  unfold pct jsDiv
  rw [if_pos h, sub_self, zero_div]
  simp [jsMul100]

/-- The first halving event of the table. -/
def ev1 : HalvingEvent := ⟨"2012-11-28", 210000, 1, 1235 / 100, 1354060800000⟩

/-- The fourth halving event of the table. -/
def ev4 : HalvingEvent := ⟨"2024-04-19", 840000, 4, 63812, 1713484800000⟩

/-- A degenerate event with `priceAtHalving = 0` for the division
edge case. -/
def ev0 : HalvingEvent := ⟨"", 0, 0, 0, 0⟩

/-- Two points on the two days after the first halving. -/
def dA : List PricePoint :=
  [ ⟨1354060800000 + dayMs, "2012-11-29", 5⟩,
    ⟨1354060800000 + 2 * dayMs, "2012-11-30", 3⟩ ]

/-- A single point the day after the first halving (nothing after the
peak). -/
def dB : List PricePoint := [⟨1354060800000 + dayMs, "2012-11-29", 100⟩]

/-- A single point far before the fourth halving (empty post window). -/
def dC : List PricePoint := [⟨1, "1970-01-01", 5⟩]

/-- Points on the day before and the day of the first halving. -/
def dE : List PricePoint :=
  [ ⟨1354060800000 - dayMs, "2012-11-27", 100⟩,
    ⟨1354060800000, "2012-11-28", 200⟩ ]

/-- C5 counterexample: after a failed fetch the component does NOT keep
showing the loading indicator — `setLoading(false)` in the catch block
makes it render the (empty) main view. -/
theorem failed_fetch_leaves_loading_screen :
    render (fetchHistoricalData (Except.error "network error")
      initialState).1 ≠ Screen.loadingScreen := by
  intro h
  simp [fetchHistoricalData, initialState, render] at h

/-- C5 (amended): a failed load is caught and logged, the price series
and the analysis list are never populated (they stay empty), but
`loading` is set to `false`, so the dashboard leaves the loading state
and renders the main view with no data. -/
theorem failed_fetch_behaviour (e : String) (s : HomeState) :
    fetchHistoricalData (Except.error e) s
      = ({ s with loading := false }, ["Error fetching data: " ++ e]) ∧
    (fetchHistoricalData (Except.error e) initialState).1.priceData = [] ∧
    (fetchHistoricalData (Except.error e) initialState).1.cycleAnalysis
      = [] ∧
    render (fetchHistoricalData (Except.error e) initialState).1
      = Screen.mainView [] [] :=
  ⟨rfl, rfl, rfl, rfl⟩

/-- C7: with an empty post-halving window the peak is the zero-price
sentinel and, whenever the halving price is positive, the post-halving
percentage gain is exactly −100. -/
theorem empty_post_window_postGain (data : List PricePoint)
    (e : HalvingEvent) (hw : postWindowOf data e = []) :
    peakOf data e = peakSentinel ∧
    (0 < halvingPriceOf data e →
      (analyzeEvent data e).postHalvingData.percentageGain
        = JSVal.fin (-100)) := by
  refine ⟨peakOf_eq_sentinel hw, fun hp => ?_⟩
  have hpk : peakPriceOf data e = 0 := by
    rw [peakPriceOf, peakOf_eq_sentinel hw, jsOrQ_zero]; rfl
  rw [analyzeEvent_postGain, hpk]
  exact pct_zero_of_ne _ (ne_of_gt hp)

/-- C7 witness: a series whose single point lies long before the fourth
halving. -/
theorem empty_post_window_postGain_witness :
    peakOf dC ev4 = peakSentinel ∧
    (analyzeEvent dC ev4).postHalvingData.percentageGain
      = JSVal.fin (-100) := by
  have h := empty_post_window_postGain dC ev4 (by decide)
  exact ⟨h.1, h.2 (by decide)⟩

/-- C9: the backtest is a pure, deterministic function of the series and
the fixed event table; recomputing it (and re-applying the resulting
state update) changes nothing. -/
theorem performBacktest_deterministic (data : List PricePoint)
    (s : HomeState) :
    performBacktest data = performBacktest data ∧
    setAnalyses data (setAnalyses data s) = setAnalyses data s :=
  ⟨rfl, rfl⟩

/-- C10: a zero `startPrice` makes `preGain%` non-finite and a zero
`halvingPrice` makes `postGain%` non-finite; the values are stored in
the analysis record as-is and no error is raised (the computation is
total). -/
theorem zero_divisor_not_finite (data : List PricePoint)
    (e : HalvingEvent) :
    (startPriceOf data e = 0 →
      (analyzeEvent data e).preHalvingData.percentageGain.isFinite
        = false) ∧
    (halvingPriceOf data e = 0 →
      (analyzeEvent data e).postHalvingData.percentageGain.isFinite
        = false) := by
  constructor
  · intro h
    rw [analyzeEvent_preGain, h]
    exact pct_div_zero_not_finite _
  · intro h
    rw [analyzeEvent_postGain, h]
    exact pct_div_zero_not_finite _

/-- C10 witness: the empty series with a zero-price event makes both
divisors zero and both percentages non-finite. -/
theorem zero_divisor_not_finite_witness :
    (analyzeEvent [] ev0).preHalvingData.percentageGain.isFinite
      = false ∧
    (analyzeEvent [] ev0).postHalvingData.percentageGain.isFinite
      = false := by
  have h := zero_divisor_not_finite [] ev0
  exact ⟨h.1 (by decide), h.2 (by decide)⟩

/-- C2: the post window is exactly the points with timestamp in
`(T, T + 730 days]`; on a nonempty window the peak is the earliest
point attaining the maximum price, on an empty window it is the
zero-price sentinel; `daysToTop` is the floored day difference and
`postGain%` is `(peak.price − halvingPrice) / halvingPrice × 100`. -/
theorem peak_selection_spec (data : List PricePoint) (e : HalvingEvent) :
    (∀ p, p ∈ postWindowOf data e ↔
      p ∈ data ∧ e.timestampMs < p.timestamp ∧
        p.timestamp ≤ e.timestampMs + 730 * dayMs) ∧
    (postWindowOf data e ≠ [] →
      isFirstMax (postWindowOf data e) (peakOf data e)) ∧
    (postWindowOf data e = [] → peakOf data e = peakSentinel) ∧
    (analyzeEvent data e).postHalvingData.daysToTop
      = Int.fdiv ((peakOf data e).timestamp - e.timestampMs) dayMs ∧
    (analyzeEvent data e).postHalvingData.percentageGain
      = pct (peakOf data e).price (halvingPriceOf data e) := by
  refine ⟨?_, fun h => peakOf_isFirstMax h, fun h => peakOf_eq_sentinel h,
    analyzeEvent_daysToTop data e, ?_⟩
  · intro p
    simp [postWindowOf, List.mem_filter, and_assoc]
  · rw [analyzeEvent_postGain, peakPriceOf, jsOrQ_zero]

/-- C2 witness: both the nonempty-window and the empty-window branches
at concrete inputs. -/
theorem peak_selection_spec_witness :
    isFirstMax (postWindowOf dA ev1) (peakOf dA ev1) ∧
    peakOf dC ev4 = peakSentinel :=
  ⟨(peak_selection_spec dA ev1).2.1 (by decide),
   (peak_selection_spec dC ev4).2.2.1 (by decide)⟩

/-- C4: for every event of the fixed table, the produced analysis has
its peak inside the post-event search window `(T, T + 730 days]` and its
trough strictly after the peak inside the 365-point crash search window,
with the degenerate defaults exactly when no data point is in range. -/
theorem analysis_invariant (data : List PricePoint) (e : HalvingEvent)
    (he : e ∈ halvingEvents) :
    analyzeEvent data e ∈ performBacktest data ∧
    (postWindowOf data e ≠ [] →
      e.timestampMs < (peakOf data e).timestamp ∧
      (peakOf data e).timestamp ≤ e.timestampMs + 730 * dayMs) ∧
    (postWindowOf data e = [] → peakOf data e = peakSentinel) ∧
    (afterPeakOf data e ≠ [] →
      troughOf data e ∈ (afterPeakOf data e).take 365 ∧
      (peakOf data e).timestamp < (troughOf data e).timestamp) ∧
    (afterPeakOf data e = [] →
      troughOf data e = ⟨0, "", peakPriceOf data e⟩) := by
  refine ⟨List.mem_map.mpr ⟨e, he, rfl⟩, ?_, fun h => peakOf_eq_sentinel h,
    ?_, fun h => troughOf_default h⟩
  · intro hw
    have hmem : peakOf data e ∈ postWindowOf data e :=
      isFirstMax_elem (peakOf_isFirstMax hw)
    have := (List.mem_filter.mp hmem).2
    simpa using this
  · intro hch
    have hmemt : troughOf data e ∈ (afterPeakOf data e).take 365 :=
      isFirstMin_elem (troughOf_isFirstMin hch)
    refine ⟨hmemt, ?_⟩
    have hmem : troughOf data e ∈ afterPeakOf data e :=
      List.mem_of_mem_take hmemt
    have := (List.mem_filter.mp hmem).2
    simpa using this

/-- `ev1` is an entry of the fixed table. -/
lemma ev1_mem : ev1 ∈ halvingEvents := by
  unfold halvingEvents ev1
  exact List.Mem.head _

/-- `ev4` is an entry of the fixed table. -/
lemma ev4_mem : ev4 ∈ halvingEvents := by
  unfold halvingEvents ev4
  exact List.Mem.tail _ (List.Mem.tail _ (List.Mem.tail _ (List.Mem.head _)))

/-- C4 witness: all four branches at concrete inputs. -/
theorem analysis_invariant_witness :
    (1354060800000 < (peakOf dA ev1).timestamp ∧
      (peakOf dA ev1).timestamp ≤ 1354060800000 + 730 * dayMs) ∧
    ((peakOf dA ev1).timestamp < (troughOf dA ev1).timestamp) ∧
    peakOf dC ev4 = peakSentinel ∧
    troughOf dB ev1 = ⟨0, "", peakPriceOf dB ev1⟩ :=
  ⟨(analysis_invariant dA ev1 ev1_mem).2.1 (by decide),
   ((analysis_invariant dA ev1 ev1_mem).2.2.2.1 (by decide)).2,
   (analysis_invariant dC ev4 ev4_mem).2.2.1 (by decide),
   (analysis_invariant dB ev1 ev1_mem).2.2.2.2 (by decide)⟩

/-- C3: the pre window is exactly the points with timestamp in
`[T − 365 days, T]`; `startPrice` is the first point's price (0 on an
empty window), `halvingPrice` the last point's price (the event's
`priceAtHalving` on an empty window), and
`preGain% = (halvingPrice − startPrice) / startPrice × 100`.  Prices are
positive per the data model, so the falsy fallbacks only fire on the
empty window. -/
theorem pre_window_spec (data : List PricePoint) (e : HalvingEvent)
    (hpos : ∀ p ∈ data, 0 < p.price) :
    (∀ p, p ∈ preWindowOf data e ↔
      p ∈ data ∧ e.timestampMs - 365 * dayMs ≤ p.timestamp ∧
        p.timestamp ≤ e.timestampMs) ∧
    (preWindowOf data e = [] →
      startPriceOf data e = 0 ∧
      halvingPriceOf data e = e.priceAtHalving) ∧
    (∀ h, (preWindowOf data e).head? = some h →
      startPriceOf data e = h.price) ∧
    (∀ l, (preWindowOf data e).getLast? = some l →
      halvingPriceOf data e = l.price) ∧
    (analyzeEvent data e).preHalvingData.percentageGain
      = pct (halvingPriceOf data e) (startPriceOf data e) := by
  refine ⟨?_, ?_, ?_, ?_, analyzeEvent_preGain data e⟩
  · intro p
    simp [preWindowOf, List.mem_filter, and_assoc]
  · intro hw
    constructor
    · rw [startPriceOf, hw]; rfl
    · rw [halvingPriceOf, hw]; rfl
  · intro h hh
    have hmem : h ∈ preWindowOf data e :=
      List.mem_of_mem_head? (by rw [hh]; exact rfl)
    have hp : 0 < h.price := hpos h (List.mem_filter.mp hmem).1
    rw [startPriceOf, hh]
    simp [jsOr, hp.ne']
  · intro l hl
    have hmem : l ∈ preWindowOf data e :=
      List.mem_of_mem_getLast? (by rw [hl]; exact rfl)
    have hp : 0 < l.price := hpos l (List.mem_filter.mp hmem).1
    rw [halvingPriceOf, hl]
    simp [jsOr, hp.ne']

/-- C3 witness: nonempty window (two points around the first halving)
and empty window (empty series). -/
theorem pre_window_spec_witness :
    startPriceOf dE ev1 = 100 ∧ halvingPriceOf dE ev1 = 200 ∧
    startPriceOf [] ev1 = 0 ∧
    halvingPriceOf [] ev1 = ev1.priceAtHalving := by
  have h1 := pre_window_spec dE ev1 (by decide)
  have h2 := pre_window_spec [] ev1 (by simp)
  have he := h2.2.1 rfl
  refine ⟨?_, ?_, he.1, he.2⟩
  · exact h1.2.2.1 ⟨1354060800000 - dayMs, "2012-11-27", 100⟩ (by decide)
  · exact h1.2.2.2.1 ⟨1354060800000, "2012-11-28", 200⟩ (by decide)

/-- C6: when the post-halving window is empty, the sentinel peak has
timestamp 0, so the crash filter keeps the entire series (all timestamps
are positive epoch ms); the trough is the first minimum of the first 365
points of the whole series and the drawdown is computed with divisor 0
(the sentinel peak price). -/
theorem empty_post_window_crash (data : List PricePoint)
    (e : HalvingEvent) (hw : postWindowOf data e = []) (hne : data ≠ [])
    (hts : ∀ p ∈ data, 0 < p.timestamp) :
    afterPeakOf data e = data ∧
    isFirstMin (data.take 365) (troughOf data e) ∧
    peakPriceOf data e = 0 ∧
    (analyzeEvent data e).crashData.percentageFromPeak
      = pct (troughOf data e).price 0 := by
  have hap : afterPeakOf data e = data := by
    unfold afterPeakOf
    simp only [peakOf_eq_sentinel hw]
    apply List.filter_eq_self.mpr
    intro a ha
    simpa [peakSentinel] using hts a ha
  have hpk : peakPriceOf data e = 0 := by
    rw [peakPriceOf, peakOf_eq_sentinel hw, jsOrQ_zero]; rfl
  refine ⟨hap, ?_, hpk, ?_⟩
  · have hmin := @troughOf_isFirstMin data e
      (by rw [hap]; exact hne)
    rwa [hap] at hmin
  · rw [analyzeEvent_crashPct, hpk]

/-- C6 witness: a single pre-2024 point with the fourth halving. -/
theorem empty_post_window_crash_witness :
    afterPeakOf dC ev4 = dC ∧
    isFirstMin (dC.take 365) (troughOf dC ev4) ∧
    (analyzeEvent dC ev4).crashData.percentageFromPeak
      = pct (troughOf dC ev4).price 0 := by
  have h := empty_post_window_crash dC ev4 (by decide) (by decide)
    (by decide)
  exact ⟨h.1, h.2.1, h.2.2.2⟩

/-- C1 counterexample: on the empty series (event 1) the truncated crash
window is empty while the drawdown evaluates to NaN, not 0 — the default
trough price equals the sentinel peak price 0 and `0/0` is NaN. -/
theorem empty_series_drawdown_nan :
    (afterPeakOf [] ev1).take 365 = [] ∧
    (analyzeEvent ([] : List PricePoint) ev1).crashData.percentageFromPeak
      = JSVal.nan ∧
    (analyzeEvent ([] : List PricePoint) ev1).crashData.percentageFromPeak
      ≠ JSVal.fin 0 := by
  have hap : afterPeakOf [] ev1 = [] := rfl
  have hw : postWindowOf [] ev1 = [] := rfl
  have hpk : peakPriceOf [] ev1 = 0 := by
    rw [peakPriceOf, peakOf_eq_sentinel hw, jsOrQ_zero]; rfl
  have htr : troughOf [] ev1 = ⟨0, "", 0⟩ := by
    rw [troughOf_default hap, hpk]
  have hcr : (analyzeEvent ([] : List PricePoint) ev1).crashData.percentageFromPeak
      = pct 0 0 := by
    rw [analyzeEvent_crashPct, htr, hpk]
  have hnan : pct 0 0 = JSVal.nan := by
    simp [pct, jsDiv, jsMul100]
  refine ⟨by rw [hap]; rfl, by rw [hcr, hnan], by rw [hcr, hnan]; simp⟩

/-- C1 (amended): the crash window is the points strictly after the
peak's timestamp truncated to the first 365; the trough is the
first-occurring minimum of that truncated window; when it is empty the
trough defaults to `{price: peak.price, date: '', timestamp: 0}` and the
drawdown evaluates to 0 provided `peak.price ≠ 0` (with a zero peak
price — e.g. an empty series — the division `0/0` yields NaN instead). -/
theorem crash_window_spec (data : List PricePoint) (e : HalvingEvent) :
    (∀ p, p ∈ afterPeakOf data e ↔
      p ∈ data ∧ (peakOf data e).timestamp < p.timestamp) ∧
    (afterPeakOf data e ≠ [] →
      isFirstMin ((afterPeakOf data e).take 365) (troughOf data e)) ∧
    (afterPeakOf data e = [] →
      troughOf data e = ⟨0, "", (peakOf data e).price⟩ ∧
      ((peakOf data e).price ≠ 0 →
        (analyzeEvent data e).crashData.percentageFromPeak
          = JSVal.fin 0)) := by
  have hpp : peakPriceOf data e = (peakOf data e).price := by
    rw [peakPriceOf, jsOrQ_zero]
  refine ⟨?_, fun h => troughOf_isFirstMin h, ?_⟩
  · intro p
    simp [afterPeakOf, List.mem_filter]
  · intro hch
    constructor
    · rw [troughOf_default hch, hpp]
    · intro hne
      rw [analyzeEvent_crashPct, troughOf_default hch]
      show pct (peakPriceOf data e) (peakPriceOf data e) = JSVal.fin 0
      rw [hpp]
      exact pct_self _ hne

/-- C1 witness: nonempty crash window (two points after the first
halving) and empty crash window with nonzero peak price (single point
after the first halving). -/
theorem crash_window_spec_witness :
    isFirstMin ((afterPeakOf dA ev1).take 365) (troughOf dA ev1) ∧
    troughOf dB ev1 = ⟨0, "", (peakOf dB ev1).price⟩ ∧
    (analyzeEvent dB ev1).crashData.percentageFromPeak = JSVal.fin 0 := by
  have h1 := (crash_window_spec dA ev1).2.1 (by decide)
  have h2 := (crash_window_spec dB ev1).2.2 (by decide)
  exact ⟨h1, h2.1, h2.2 (by decide)⟩

/-- The spec's example series `[(t0,100),(T,200),(t2,150)]`. -/
def exampleSeries (t0 T t2 : Int) : List PricePoint :=
  [⟨t0, "d0", 100⟩, ⟨T, "d1", 200⟩, ⟨t2, "d2", 150⟩]

/-- C8: on the series `[(t0,100),(t1,200),(t2,150)]` with the event at
`t1`, `t0` in the pre window and `t2` in the post window, the backtest
yields `preGain% = 100`, peak `(t2,150)` and `postGain% = −25`. -/
theorem three_point_example (e : HalvingEvent) (t0 t2 : Int)
    (h1 : e.timestampMs - 365 * dayMs ≤ t0) (h2 : t0 ≤ e.timestampMs)
    (h3 : e.timestampMs < t2) (h4 : t2 ≤ e.timestampMs + 730 * dayMs) :
    (analyzeEvent (exampleSeries t0 e.timestampMs t2) e).preHalvingData.percentageGain
      = JSVal.fin 100 ∧
    peakOf (exampleSeries t0 e.timestampMs t2) e = ⟨t2, "d2", 150⟩ ∧
    (analyzeEvent (exampleSeries t0 e.timestampMs t2) e).postHalvingData.percentageGain
      = JSVal.fin (-25) := by
  have hm : e.timestampMs - 365 * dayMs ≤ e.timestampMs := by
    unfold dayMs; omega
  have hn2 : ¬ t2 ≤ e.timestampMs := not_le.mpr h3
  have hn0 : ¬ e.timestampMs < t0 := not_lt.mpr h2
  have h1p : e.timestampMs ≤ t0 + 365 * dayMs := by
    unfold dayMs at h1 ⊢; omega
  have hd : (0 : Int) ≤ dayMs := by unfold dayMs; omega
  have hpre : preWindowOf (exampleSeries t0 e.timestampMs t2) e
      = [⟨t0, "d0", 100⟩, ⟨e.timestampMs, "d1", 200⟩] := by
    simp [preWindowOf, exampleSeries, List.filter_cons, h1, h2, hm, hn2,
      h1p, hd]
  have hpost : postWindowOf (exampleSeries t0 e.timestampMs t2) e
      = [⟨t2, "d2", 150⟩] := by
    simp [postWindowOf, exampleSeries, List.filter_cons, hn0, h3, h4]
  have hpeak : peakOf (exampleSeries t0 e.timestampMs t2) e
      = ⟨t2, "d2", 150⟩ := by
    unfold peakOf
    rw [hpost]
    simp [stepMax]
  have hstart : startPriceOf (exampleSeries t0 e.timestampMs t2) e = 100 := by
    rw [startPriceOf, hpre]
    norm_num [jsOr]
  have hhp : halvingPriceOf (exampleSeries t0 e.timestampMs t2) e = 200 := by
    rw [halvingPriceOf, hpre]
    norm_num [jsOr, List.getLast?]
  refine ⟨?_, hpeak, ?_⟩
  · rw [analyzeEvent_preGain, hstart, hhp]
    unfold pct jsDiv
    rw [if_pos (by norm_num : (100 : ℚ) ≠ 0)]
    norm_num [jsMul100]
  · have hpk : peakPriceOf (exampleSeries t0 e.timestampMs t2) e = 150 := by
      rw [peakPriceOf, hpeak, jsOrQ_zero]
    rw [analyzeEvent_postGain, hpk, hhp]
    unfold pct jsDiv
    rw [if_pos (by norm_num : (200 : ℚ) ≠ 0)]
    norm_num [jsMul100]

/-- C8 witness: the first halving event with `t0` one day before and
`t2` one day after it. -/
theorem three_point_example_witness :
    (analyzeEvent (exampleSeries (1354060800000 - dayMs) 1354060800000
        (1354060800000 + dayMs)) ev1).preHalvingData.percentageGain
      = JSVal.fin 100 ∧
    peakOf (exampleSeries (1354060800000 - dayMs) 1354060800000
        (1354060800000 + dayMs)) ev1
      = ⟨1354060800000 + dayMs, "d2", 150⟩ ∧
    (analyzeEvent (exampleSeries (1354060800000 - dayMs) 1354060800000
        (1354060800000 + dayMs)) ev1).postHalvingData.percentageGain
      = JSVal.fin (-25) :=
  three_point_example ev1 (1354060800000 - dayMs) (1354060800000 + dayMs)
    (by decide) (by decide) (by decide) (by decide)
